import Mathlib

/-!
Verification of the slot-machine probability engine and session store.

The definitions below are a shallow embedding of the Python sources:

* app/core/probability.py (class ProbabilityCalculator),
* app/core/session_manager.py (class SessionManager),
* app/models/slot_machine.py (class GameSession),
* app/core/config.py (validate_config).

Python floats are modelled as exact rationals, Python ints as Lean Int,
dictionaries as association lists (first matching key wins, as dict keys
are unique in all reachable states), and code paths that raise an
uncaught exception are modelled as Option.none.  Wall-clock timestamps
are abstracted to integers passed explicitly to each operation that
reads the clock.
-/

/-- State of probability.py's ProbabilityCalculator: the symbol list, the
parallel weight list, the payout-multiplier mapping, the reel count and the
derived per-symbol probability list (a stored field in the Python class,
recomputed by the private helper after every successful mutation). -/
structure ProbCalc where
  symbols : List String
  weights : List Int
  payouts : List (String × Int)
  numReels : Nat
  probabilities : List ℚ
deriving DecidableEq, Repr

/-- Python dict lookup with default 0: payouts.get(sym, 0). -/
def payoutOf (payouts : List (String × Int)) (sym : String) : Int :=
  ((payouts.find? (fun kv => kv.1 == sym)).map Prod.snd).getD 0

/-- Embeds ProbabilityCalculator._calculate_probabilities: each weight divided
by the sum of all weights. -/
def calcProbabilities (weights : List Int) : List ℚ :=
  weights.map (fun w => (w : ℚ) / ((weights.sum : Int) : ℚ))

/-- Embeds the dict lookup in calculate_payout:
a 2-to-1, 3-to-2, 4-to-4, 5-to-8 table with default 1.0. -/
def matchBonus (n : Nat) : ℚ :=
  if n = 2 then 1 else if n = 3 then 2 else if n = 4 then 4 else if n = 5 then 8 else 1

/-- Python int() applied to a float value: truncation toward zero. -/
def pyInt (q : ℚ) : Int :=
  if 0 ≤ q then ⌊q⌋ else ⌈q⌉

/-- The largest occurrence count of any element of the outcome
(Counter(symbols).most_common gives this as the top count). -/
def listMaxCount (xs : List String) : Nat :=
  (xs.map (fun s => xs.count s)).foldr max 0

/-- Embeds Counter(symbols).most_common(1)[0]: the first-inserted key whose
count is maximal, together with its count.  Counter iterates keys in order of
first occurrence and heapq.nlargest(1) (via max) keeps the first maximum, so
the winner is the earliest element of the list attaining the maximal count.
Returns none for the empty list, where the Python indexing [0] raises. -/
def mostCommon (xs : List String) : Option (String × Nat) :=
  (xs.find? (fun s => xs.count s == listMaxCount xs)).map (fun s => (s, xs.count s))

/-- Embeds ProbabilityCalculator.calculate_payout.  none models the
ValueError on an outcome whose length differs from the reel count, and the
IndexError on an empty outcome. -/
def calculate_payout (c : ProbCalc) (symbols : List String) (bet : Int) : Option Int :=
  if symbols.length = c.numReels then
    match mostCommon symbols with
    | none => none
    | some (sym, cnt) =>
      if 2 ≤ cnt then
        some (pyInt ((bet : ℚ) * ((payoutOf c.payouts sym : Int) : ℚ) * matchBonus cnt))
      else
        some 0
  else
    none

/-- Embeds itertools.product(symbols, repeat=n): all ordered outcomes of
length n drawn from the symbol list. -/
def allCombinations (symbols : List String) : Nat → List (List String)
  | 0 => [[]]
  | n + 1 => symbols.flatMap (fun s => (allCombinations symbols n).map (fun c => s :: c))

/-- The probability the inner loop of calculate_theoretical_rtp assigns to a
combination: the product over its entries of probabilities[symbols.index(entry)]. -/
def symbolProb (c : ProbCalc) (s : String) : ℚ :=
  c.probabilities.getD (c.symbols.indexOf s) 0

/-- Product of the per-entry probabilities of one combination, as accumulated
by the prob *= ... loop. -/
def combProb (c : ProbCalc) (comb : List String) : ℚ :=
  (comb.map (symbolProb c)).prod

/-- The accumulation loop of calculate_theoretical_rtp over a list of
combinations: sums payout-at-unit-bet times probability; none if any
payout call raises. -/
def rtpTerms (c : ProbCalc) : List (List String) → Option ℚ
  | [] => some 0
  | comb :: rest => do
    let p ← calculate_payout c comb 1
    let r ← rtpTerms c rest
    pure ((p : ℚ) * combProb c comb + r)

/-- Embeds ProbabilityCalculator.calculate_theoretical_rtp: the expected
payout per unit bet over all combinations, times 100. -/
def calculate_theoretical_rtp (c : ProbCalc) : Option ℚ :=
  match rtpTerms c (allCombinations c.symbols c.numReels) with
  | none => none
  | some t => some (t * 100)

/-- The counting loop of calculate_win_probability: the number of
combinations whose unit-bet payout is positive; none if any payout call
raises. -/
def winCount (c : ProbCalc) : List (List String) → Option Nat
  | [] => some 0
  | comb :: rest => do
    let p ← calculate_payout c comb 1
    let r ← winCount c rest
    pure ((if 0 < p then 1 else 0) + r)

/-- Embeds ProbabilityCalculator.calculate_win_probability: the fraction of
winning combinations among all combinations, times 100.  none models the
ZeroDivisionError when there are no combinations. -/
def calculate_win_probability (c : ProbCalc) : Option ℚ :=
  match winCount c (allCombinations c.symbols c.numReels) with
  | none => none
  | some w =>
    if (allCombinations c.symbols c.numReels).length = 0 then none
    else some (((w : Nat) : ℚ) /
      (((allCombinations c.symbols c.numReels).length : Nat) : ℚ) * 100)

/-- Embeds ProbabilityCalculator.update_configuration: the three sequential
validation checks (raising, hence returning False, on the first failure) and,
only if all pass, the replacement of symbols, weights and payouts followed by
the probability recomputation. -/
def update_configuration (c : ProbCalc) (symbols : List String) (weights : List Int)
    (payouts : List (String × Int)) : ProbCalc × Bool :=
  if symbols.length ≠ weights.length then (c, false)
  else if ¬ (∀ w ∈ weights, 0 < w) then (c, false)
  else if ¬ (∀ s ∈ symbols, s ∈ payouts.map Prod.fst) then (c, false)
  else
    ({ symbols := symbols, weights := weights, payouts := payouts,
       numReels := c.numReels, probabilities := calcProbabilities weights }, true)

/-- A probability-calculator state as the claims assume it: distinct symbols,
weights parallel to symbols and positive, a positive multiplier for every
symbol, a reel count of at least one (config.validate_config enforces
1 <= NUM_REELS <= 10) and the stored probability list coherent with the
weights (an invariant of the class, re-established after every mutation). -/
def ValidConfig (c : ProbCalc) : Prop :=
  c.symbols.Nodup ∧
  c.symbols.length = c.weights.length ∧
  (∀ w ∈ c.weights, 0 < w) ∧
  (∀ s ∈ c.symbols, 0 < payoutOf c.payouts s) ∧
  1 ≤ c.numReels ∧
  c.probabilities = calcProbabilities c.weights

instance (c : ProbCalc) : Decidable (ValidConfig c) := by
  unfold ValidConfig; infer_instance

/-- Sum of the configured weights. -/
def totalWeight (c : ProbCalc) : Int :=
  c.weights.sum

/-- The weight the configuration assigns to a symbol (0 if absent). -/
def weightOf (c : ProbCalc) (s : String) : Int :=
  c.weights.getD (c.symbols.indexOf s) 0

/-- The probability of an outcome as the spec words it: the product over the
reels of weight(symbol) divided by the sum of the weights. -/
def specOutcomeProb (c : ProbCalc) (comb : List String) : ℚ :=
  (comb.map (fun s => ((weightOf c s : Int) : ℚ) / ((totalWeight c : Int) : ℚ))).prod

/-- The RTP as the spec words it: 100 times the sum, over all ordered
outcomes, of outcome probability times unit-bet payout. -/
def specRtp (c : ProbCalc) : ℚ :=
  100 * ((allCombinations c.symbols c.numReels).map
    (fun comb => specOutcomeProb c comb * (((calculate_payout c comb 1).getD 0 : Int) : ℚ))).sum

/-- The win probability as the spec words it: 100 times the sum of the exact
probabilities of the outcomes with positive payout. -/
def specWinProbability (c : ProbCalc) : ℚ :=
  100 * ((allCombinations c.symbols c.numReels).map
    (fun comb => if 0 < (calculate_payout c comb 1).getD 0 then specOutcomeProb c comb else 0)).sum

/-- The payout rule as the spec words it: on a tie at the maximal count the
winner is the tied symbol with the highest payout multiplier, and the result
is the floor of wager times multiplier times bonus. -/
def specPayout (c : ProbCalc) (xs : List String) (bet : Int) : Option Int :=
  if xs.length = c.numReels then
    if listMaxCount xs < 2 then some 0
    else
      ((xs.filter (fun s => xs.count s == listMaxCount xs)).argmax
        (fun s => payoutOf c.payouts s)).map
        (fun w => ⌊(bet : ℚ) * ((payoutOf c.payouts w : Int) : ℚ) * matchBonus (listMaxCount xs)⌋)
  else none

/-- The example configuration of the spec: symbols A and B with equal unit
weights, multipliers 10 and 5, two reels. -/
def exCfg : ProbCalc :=
  { symbols := ["A", "B"], weights := [1, 1], payouts := [("A", 10), ("B", 5)],
    numReels := 2, probabilities := calcProbabilities [1, 1] }


/-- State of models/slot_machine.py's GameSession record.  Timestamps are
abstract integers on the same scale as the expiry threshold. -/
structure GameSession where
  sessionId : String
  credits : Int
  createdAt : Int
  lastActivity : Int
  totalSpins : Int
  totalWinnings : Int
  isActive : Bool
deriving DecidableEq, Repr

/-- The in-memory session dictionary of SessionManager, as an association
list with unique keys in every reachable state.  The durable snapshot files
mirror this dictionary and are not modelled separately. -/
abbrev SessionStore : Type := List (String × GameSession)

/-- Python dict lookup self.sessions.get(session_id). -/
def lookup_session (st : SessionStore) (sid : String) : Option GameSession :=
  ((st.find? (fun kv => kv.1 == sid)).map Prod.snd)

/-- Python dict assignment self.sessions[session_id] = session: replace the
entry when the key is present, append it otherwise. -/
def set_session (st : SessionStore) (sid : String) (s : GameSession) : SessionStore :=
  if (st.find? (fun kv => kv.1 == sid)).isSome then
    st.map (fun kv => if kv.1 == sid then (sid, s) else kv)
  else
    st ++ [(sid, s)]

/-- Python del self.sessions[session_id]. -/
def remove_session (st : SessionStore) (sid : String) : SessionStore :=
  st.filter (fun kv => kv.1 != sid)

/-- SESSION_MAX_AGE_HOURS: the expiry threshold, in abstract time units. -/
def sessionMaxAge : Int := 24

/-- Embeds SessionManager._is_session_recent: the last activity is strictly
later than now minus the maximum age. -/
def is_session_recent (now : Int) (s : GameSession) : Bool :=
  decide (now - sessionMaxAge < s.lastActivity)

/-- Embeds GameSession.update_activity: set last_activity to the current
time. -/
def update_activity (now : Int) (s : GameSession) : GameSession :=
  { s with lastActivity := now }

/-- Embeds SessionManager.delete_session: remove the entry (and its snapshot
file) and report True when the id is present, otherwise report False.  The
except-branch is unreachable for in-memory state, so no error outcome is
modelled. -/
def delete_session (st : SessionStore) (sid : String) : SessionStore × Bool :=
  if (lookup_session st sid).isSome then (remove_session st sid, true)
  else (st, false)

/-- Embeds SessionManager.get_session: a recent session gets its activity
timestamp refreshed and re-persisted and is returned; a stale session is
deleted and None is returned; an absent id returns None. -/
def get_session (now : Int) (st : SessionStore) (sid : String) :
    SessionStore × Option GameSession :=
  match lookup_session st sid with
  | some s =>
    if is_session_recent now s then
      let s1 := update_activity now s
      (set_session st sid s1, some s1)
    else
      ((delete_session st sid).1, none)
  | none => (st, none)

/-- Embeds SessionManager.update_session: overwrite credits, optionally the
counters, refresh the activity timestamp, clear the active flag when the new
credits are not positive, persist, and return the updated session; None when
the id is absent. -/
def update_session (now : Int) (st : SessionStore) (sid : String) (credits : Int)
    (totalSpins totalWinnings : Option Int) : SessionStore × Option GameSession :=
  match lookup_session st sid with
  | none => (st, none)
  | some s =>
    let s1 : GameSession :=
      { s with
        credits := credits,
        totalSpins := totalSpins.getD s.totalSpins,
        totalWinnings := totalWinnings.getD s.totalWinnings,
        lastActivity := now,
        isActive := if credits ≤ 0 then false else s.isActive }
    (set_session st sid s1, some s1)

/-- A concrete session used by witnesses. -/
def exSession : GameSession :=
  { sessionId := "s1", credits := 100, createdAt := 0, lastActivity := 0,
    totalSpins := 0, totalWinnings := 0, isActive := true }

/-- A concrete one-session store used by witnesses. -/
def exStore : SessionStore := [("s1", exSession)]

/-- The depleted session reached from exSession by a spin losing all 100
credits at time 5. -/
def exDepleted : GameSession :=
  { sessionId := "s1", credits := 0, createdAt := 0, lastActivity := 5,
    totalSpins := 1, totalWinnings := 0, isActive := false }


/-- Embeds the reel-count check of config.validate_config: the number of
reels must be between 1 and 10. -/
def validate_num_reels (n : Nat) : Bool :=
  !(decide (n < 1) || decide (10 < n))

/-- A four-reel configuration (permitted by validate_num_reels) in which two
symbols can tie at the maximal count; the multiplier of B exceeds that of A. -/
def cfg4 : ProbCalc :=
  { symbols := ["A", "B"], weights := [1, 1], payouts := [("A", 5), ("B", 10)],
    numReels := 4, probabilities := calcProbabilities [1, 1] }

/-- A two-reel configuration with unequal weights 1 and 3, on which the
uniform combination count differs from the weighted win probability. -/
def cfgW : ProbCalc :=
  { symbols := ["A", "B"], weights := [1, 3], payouts := [("A", 10), ("B", 5)],
    numReels := 2, probabilities := calcProbabilities [1, 3] }

/-- The winner the code actually selects on a tie: the earliest element of
the outcome attaining the maximal occurrence count. -/
def amendedWinner (xs : List String) : String :=
  (xs.find? (fun s => xs.count s == listMaxCount xs)).getD ""

theorem lookup_map_replace (sid : String) (s : GameSession) (st : SessionStore) :
    lookup_session (st.map (fun kv => if kv.1 == sid then (sid, s) else kv)) sid =
      if (st.find? (fun kv => kv.1 == sid)).isSome then some s else none := by
  induction st with
  | nil => simp [lookup_session]
  | cons kv t ih =>
    by_cases hk : (kv.1 == sid) = true
    · simp [lookup_session, List.find?, hk]
    · unfold lookup_session at ih ⊢
      have hkf : (kv.1 == sid) = false := by simpa using hk
      rw [List.map_cons, if_neg hk]
      simp only [List.find?, hkf]
      exact ih

theorem lookup_append_self (sid : String) (s : GameSession) (st : SessionStore)
    (h : st.find? (fun kv => kv.1 == sid) = none) :
    lookup_session (st ++ [(sid, s)]) sid = some s := by
  induction st with
  | nil => simp [lookup_session, List.find?]
  | cons kv t ih =>
    by_cases hk : (kv.1 == sid) = true
    · simp [List.find?, hk] at h
    · simp only [List.find?, hk] at h
      simp only [List.cons_append, lookup_session, List.find?, hk] at ih ⊢
      simpa [lookup_session] using ih h

theorem lookup_set (st : SessionStore) (sid : String) (s : GameSession) :
    lookup_session (set_session st sid s) sid = some s := by
  unfold set_session
  by_cases hp : (st.find? (fun kv => kv.1 == sid)).isSome = true
  · rw [if_pos hp, lookup_map_replace, if_pos hp]
  · rw [if_neg hp]
    exact lookup_append_self sid s st (Option.not_isSome_iff_eq_none.mp hp)

theorem lookup_remove (st : SessionStore) (sid : String) :
    lookup_session (remove_session st sid) sid = none := by
  unfold lookup_session remove_session
  rw [List.find?_eq_none.mpr]
  · rfl
  · intro kv hmem
    have h2 := (List.mem_filter.mp hmem).2
    simpa using h2

/-- C8: deleting a present id reports ok and removes the entry, so a second
deletion of the same id reports not found; deleting an id that was never
present reports not found.  Both calls are total, so neither raises. -/
theorem delete_session_idempotent (st : SessionStore) (sid : String) :
    ((lookup_session st sid).isSome = true →
      (delete_session st sid).2 = true ∧
      (delete_session (delete_session st sid).1 sid).2 = false) ∧
    (lookup_session st sid = none → (delete_session st sid).2 = false) := by
  constructor
  · intro h
    constructor
    · simp [delete_session, h]
    · simp [delete_session, h, lookup_remove]
  · intro h
    simp [delete_session, h]

/-- C8 witness: on the concrete one-session store, deleting s1 reports ok,
deleting it again reports not found, and deleting the absent id s2 reports
not found. -/
theorem delete_session_idempotent_witness :
    ((delete_session exStore "s1").2 = true ∧
      (delete_session (delete_session exStore "s1").1 "s1").2 = false) ∧
    (delete_session exStore "s2").2 = false :=
  ⟨(delete_session_idempotent exStore "s1").1 (by decide),
   (delete_session_idempotent exStore "s2").2 (by decide)⟩

/-- C7: driving the credits of a stored session to exactly 0 through
update_session clears the active flag but keeps the record: the store still
maps the id, and a get at any time within the expiry window still returns
the (depleted, activity-refreshed) session. -/
theorem depleted_session_kept (st : SessionStore) (sid : String)
    (now : Int) (s : GameSession) (ts tw : Option Int)
    (h : lookup_session st sid = some s) :
    ∃ s1, (update_session now st sid 0 ts tw).2 = some s1 ∧
      s1.isActive = false ∧ s1.credits = 0 ∧
      lookup_session (update_session now st sid 0 ts tw).1 sid = some s1 ∧
      ∀ t : Int, is_session_recent t s1 = true →
        (get_session t (update_session now st sid 0 ts tw).1 sid).2 =
          some (update_activity t s1) := by
  refine ⟨{ s with
    credits := 0
    totalSpins := ts.getD s.totalSpins
    totalWinnings := tw.getD s.totalWinnings
    lastActivity := now
    isActive := false }, ?_, rfl, rfl, ?_, ?_⟩
  · unfold update_session
    rw [h]
    norm_num
  · unfold update_session
    rw [h]
    simp only
    rw [lookup_set]
    norm_num
  · intro t ht
    unfold update_session
    rw [h]
    simp only
    unfold get_session
    rw [lookup_set]
    simp only [if_pos]
    norm_num at ht ⊢
    rw [if_pos ht]

/-- C7 witness: in the concrete store, an update that leaves 0 credits
deactivates but keeps the session, and a later get still returns it. -/
theorem depleted_session_kept_witness :
    ∃ s1, (update_session 5 exStore "s1" 0 (some 1) (some 0)).2 = some s1 ∧
      s1.isActive = false ∧ s1.credits = 0 ∧
      lookup_session (update_session 5 exStore "s1" 0 (some 1) (some 0)).1 "s1" = some s1 ∧
      ∀ t : Int, is_session_recent t s1 = true →
        (get_session t (update_session 5 exStore "s1" 0 (some 1) (some 0)).1 "s1").2 =
          some (update_activity t s1) :=
  depleted_session_kept exStore "s1" 5 exSession (some 1) (some 0) (by decide)

/-- C10: a successful get of a recent session returns it with last_activity
set to the current time and all other fields unchanged, and stores the
refreshed record back, postponing expiry. -/
theorem get_session_refreshes_activity (st : SessionStore) (sid : String)
    (now : Int) (s : GameSession)
    (h : lookup_session st sid = some s) (hrec : is_session_recent now s = true) :
    (get_session now st sid).2 = some (update_activity now s) ∧
    lookup_session (get_session now st sid).1 sid = some (update_activity now s) ∧
    (update_activity now s).credits = s.credits ∧
    (update_activity now s).totalSpins = s.totalSpins ∧
    (update_activity now s).totalWinnings = s.totalWinnings ∧
    (update_activity now s).isActive = s.isActive ∧
    (update_activity now s).lastActivity = now := by
  unfold get_session
  rw [h]
  simp [hrec, lookup_set, update_activity]

/-- C10 witness: getting the concrete fresh session at time 5 returns it
with last_activity 5 and everything else unchanged. -/
theorem get_session_refreshes_activity_witness :
    (get_session 5 exStore "s1").2 = some (update_activity 5 exSession) ∧
    lookup_session (get_session 5 exStore "s1").1 "s1" = some (update_activity 5 exSession) ∧
    (update_activity 5 exSession).credits = exSession.credits ∧
    (update_activity 5 exSession).totalSpins = exSession.totalSpins ∧
    (update_activity 5 exSession).totalWinnings = exSession.totalWinnings ∧
    (update_activity 5 exSession).isActive = exSession.isActive ∧
    (update_activity 5 exSession).lastActivity = 5 :=
  get_session_refreshes_activity exStore "s1" 5 exSession (by decide) (by decide)

/-- C5: when update_configuration reports failure, the stored configuration
(symbols, weights, payouts, reel count and derived probabilities) is exactly
what it was before the call. -/
theorem update_configuration_failure_frame (c : ProbCalc) (symbols : List String)
    (weights : List Int) (payouts : List (String × Int))
    (h : (update_configuration c symbols weights payouts).2 = false) :
    (update_configuration c symbols weights payouts).1 = c := by
  unfold update_configuration at h ⊢
  split_ifs at h ⊢ <;> simp_all

/-- C5 witness: a length-mismatched proposal is rejected and the example
configuration is left untouched. -/
theorem update_configuration_failure_frame_witness :
    (update_configuration exCfg ["A"] [1, 2] []).2 = false ∧
    (update_configuration exCfg ["A"] [1, 2] []).1 = exCfg :=
  ⟨by decide, update_configuration_failure_frame exCfg ["A"] [1, 2] [] (by decide)⟩

/-- C6 counterexample: a proposal with duplicate symbols, a multiplier of
500 above the claimed ceiling of 100, and a weight sum of 2 outside the
claimed 50 to 200 band is nevertheless accepted by update_configuration. -/
theorem update_configuration_accepts_invalid :
    (update_configuration exCfg ["A", "A"] [1, 1] [("A", 500)]).2 = true ∧
    ¬ (["A", "A"] : List String).Nodup ∧
    ¬ ((500 : Int) ≤ 100) ∧
    ¬ (50 ≤ ([1, 1] : List Int).sum ∧ ([1, 1] : List Int).sum ≤ 200) := by
  refine ⟨by decide, by decide, by decide, by decide⟩

/-- C6 amended: update_configuration succeeds exactly when the proposed
symbols and weights have equal length, every weight is positive and every
symbol has an entry in the payout mapping; it checks neither duplicates,
nonemptiness, the multiplier ceiling, multiplier positivity, nor the
weight-sum band. -/
theorem update_configuration_success_iff (c : ProbCalc) (symbols : List String)
    (weights : List Int) (payouts : List (String × Int)) :
    (update_configuration c symbols weights payouts).2 = true ↔
    (symbols.length = weights.length ∧ (∀ w ∈ weights, 0 < w) ∧
      ∀ s ∈ symbols, s ∈ payouts.map Prod.fst) := by
  unfold update_configuration
  split_ifs with h1 h2 h3 <;> simp_all

/-- C9 counterexample: 6 reels are permitted by the configuration validator,
so match counts 5 and 6 can both occur, yet the bonus falls from 8 at five
matches back to the default 1 at six matches. -/
theorem match_bonus_not_monotone :
    validate_num_reels 6 = true ∧ 2 ≤ 5 ∧ 5 ≤ 6 ∧ (6 : Nat) ≤ 6 ∧
    ¬ matchBonus 5 ≤ matchBonus 6 := by
  refine ⟨by decide, by decide, by decide, by decide, by decide⟩

/-- C9 amended: the match bonus is monotonically non-decreasing on match
counts between 2 and 5; beyond 5 it falls back to the default 1. -/
theorem match_bonus_monotone_to_five (m1 m2 : Nat)
    (h2 : 2 ≤ m1) (h12 : m1 ≤ m2) (h5 : m2 ≤ 5) :
    matchBonus m1 ≤ matchBonus m2 := by
  have hm1 : m1 ≤ 5 := le_trans h12 h5
  interval_cases m1 <;> interval_cases m2 <;> norm_num [matchBonus]

/-- C9 amended witness: the bonus at two matches is at most the bonus at
four matches. -/
theorem match_bonus_monotone_to_five_witness : matchBonus 2 ≤ matchBonus 4 :=
  match_bonus_monotone_to_five 2 4 (by decide) (by decide) (by decide)

theorem foldr_max_mem (l : List Nat) (h : l ≠ []) : l.foldr max 0 ∈ l := by
  induction l with
  | nil => exact absurd rfl h
  | cons a t ih =>
    by_cases ht : t = []
    · subst ht
      simp
    · rcases le_total a (t.foldr max 0) with hle | hle
      · have e : (a :: t).foldr max 0 = t.foldr max 0 := by
          rw [List.foldr_cons]
          exact max_eq_right hle
        rw [e]
        exact List.mem_cons_of_mem a (ih ht)
      · have e : (a :: t).foldr max 0 = a := by
          rw [List.foldr_cons]
          exact max_eq_left hle
        rw [e]
        exact List.mem_cons_self a t

theorem maxCount_attained (xs : List String) (h : xs ≠ []) :
    ∃ s ∈ xs, xs.count s = listMaxCount xs := by
  have hmem := foldr_max_mem (xs.map (fun s => xs.count s)) (by simpa using h)
  rw [List.mem_map] at hmem
  obtain ⟨s, hs, he⟩ := hmem
  exact ⟨s, hs, he⟩

theorem mostCommon_eq_find (xs : List String) (h : xs ≠ []) :
    ∃ w, xs.find? (fun s => xs.count s == listMaxCount xs) = some w ∧
      mostCommon xs = some (w, xs.count w) ∧
      xs.count w = listMaxCount xs ∧ w ∈ xs := by
  obtain ⟨s, hs, hc⟩ := maxCount_attained xs h
  have hsome : (xs.find? (fun s => xs.count s == listMaxCount xs)).isSome := by
    rw [List.find?_isSome]
    exact ⟨s, hs, by simpa using hc⟩
  obtain ⟨w, hw⟩ := Option.isSome_iff_exists.mp hsome
  have hpw := List.find?_some hw
  have hwmem : w ∈ xs := List.mem_of_find?_eq_some hw
  exact ⟨w, hw, by simp [mostCommon, hw], by simpa using hpw, hwmem⟩

theorem matchBonus_pos (n : Nat) : 0 < matchBonus n := by
  unfold matchBonus
  split_ifs <;> norm_num

/-- C3 counterexample: on the four-reel outcome A A B B with multipliers
A 5 and B 10, the code pays by the first-occurring tied symbol A, giving 5,
while the tie-break the claim states (highest multiplier, hence B) gives 10. -/
theorem calculate_payout_tiebreak_cex :
    calculate_payout cfg4 ["A", "A", "B", "B"] 1 = some 5 ∧
    specPayout cfg4 ["A", "A", "B", "B"] 1 = some 10 ∧
    (5 : Int) ≠ 10 := by
  refine ⟨by with_unfolding_all rfl, by with_unfolding_all rfl, by decide⟩

/-- C3 amended: for an outcome of the configured length under a valid
configuration and a positive wager, the payout is 0 when the maximal count
is below 2, and otherwise the floor of wager times multiplier times bonus,
where the winner on a tie is the earliest-occurring symbol attaining the
maximal count (not the one with the highest multiplier). -/
theorem calculate_payout_amended (c : ProbCalc) (xs : List String) (bet : Int)
    (hv : ValidConfig c) (hlen : xs.length = c.numReels)
    (hmem : ∀ s ∈ xs, s ∈ c.symbols) (hbet : 0 < bet) :
    calculate_payout c xs bet =
      some (if listMaxCount xs < 2 then 0
        else ⌊(bet : ℚ) * ((payoutOf c.payouts (amendedWinner xs) : Int) : ℚ) *
            matchBonus (listMaxCount xs)⌋) := by
  have hne : xs ≠ [] := by
    intro he
    have h1 := hv.2.2.2.2.1
    rw [he] at hlen
    simp at hlen
    omega
  obtain ⟨w, hfind, hmc, hcnt, hwmem⟩ := mostCommon_eq_find xs hne
  have hwin : amendedWinner xs = w := by
    unfold amendedWinner
    rw [hfind]
    rfl
  have hmult : 0 < payoutOf c.payouts w := hv.2.2.2.1 w (hmem w hwmem)
  unfold calculate_payout
  rw [if_pos hlen, hmc, hwin]
  simp only
  rw [hcnt]
  by_cases h2 : listMaxCount xs < 2
  · rw [if_neg (by omega), if_pos h2]
  · rw [if_pos (by omega), if_neg h2]
    have hq : (0 : ℚ) ≤ (bet : ℚ) * ((payoutOf c.payouts w : Int) : ℚ) *
        matchBonus (listMaxCount xs) := by
      have hb : (0 : ℚ) ≤ (bet : ℚ) := by exact_mod_cast hbet.le
      have hm : (0 : ℚ) ≤ ((payoutOf c.payouts w : Int) : ℚ) := by exact_mod_cast hmult.le
      exact mul_nonneg (mul_nonneg hb hm) (matchBonus_pos _).le
    unfold pyInt
    rw [if_pos hq]

/-- C3 amended witness: on the tied four-reel outcome the code pays the
floor of 1 times 5 times the two-match bonus via the first-occurring tied
symbol A. -/
theorem calculate_payout_amended_witness :
    calculate_payout cfg4 ["A", "A", "B", "B"] 1 =
      some (if listMaxCount ["A", "A", "B", "B"] < 2 then 0
        else ⌊((1 : Int) : ℚ) *
            ((payoutOf cfg4.payouts (amendedWinner ["A", "A", "B", "B"]) : Int) : ℚ) *
            matchBonus (listMaxCount ["A", "A", "B", "B"])⌋) :=
  calculate_payout_amended cfg4 ["A", "A", "B", "B"] 1
    (of_decide_eq_true (by with_unfolding_all rfl)) (by decide) (by decide) (by decide)

theorem calculate_payout_isSome (c : ProbCalc) (xs : List String) (bet : Int)
    (hlen : xs.length = c.numReels) (hne : xs ≠ []) :
    (calculate_payout c xs bet).isSome := by
  obtain ⟨w, hfind, hmc, hcnt, hwmem⟩ := mostCommon_eq_find xs hne
  unfold calculate_payout
  rw [if_pos hlen, hmc]
  simp only
  split_ifs <;> rfl

theorem allCombinations_length_mem (symbols : List String) (n : Nat) :
    ∀ comb ∈ allCombinations symbols n, comb.length = n ∧ ∀ x ∈ comb, x ∈ symbols := by
  induction n with
  | zero =>
    intro comb h
    simp only [allCombinations, List.mem_singleton] at h
    subst h
    simp
  | succ n ih =>
    intro comb h
    simp only [allCombinations, List.mem_flatMap, List.mem_map] at h
    obtain ⟨s, hs, c, hc, rfl⟩ := h
    obtain ⟨hlen, hmem⟩ := ih c hc
    refine ⟨by simp [hlen], ?_⟩
    intro x hx
    rcases List.mem_cons.mp hx with rfl | hx
    · exact hs
    · exact hmem x hx

theorem sum_map_constant {α : Type} (l : List α) (k : Nat) :
    (l.map (fun _ => k)).sum = l.length * k := by
  induction l with
  | nil => simp
  | cons a t ih => simp [ih, Nat.succ_mul, Nat.add_comm]

theorem allCombinations_length (symbols : List String) (n : Nat) :
    (allCombinations symbols n).length = symbols.length ^ n := by
  induction n with
  | zero => simp [allCombinations]
  | succ n ih =>
    simp only [allCombinations, List.length_flatMap, Function.comp_def, List.length_map, ih]
    rw [sum_map_constant, pow_succ]
    ring

theorem rtpTerms_eq_sum (c : ProbCalc) (L : List (List String))
    (h : ∀ comb ∈ L, (calculate_payout c comb 1).isSome) :
    rtpTerms c L = some ((L.map (fun comb =>
      (((calculate_payout c comb 1).getD 0 : Int) : ℚ) * combProb c comb)).sum) := by
  induction L with
  | nil => rfl
  | cons comb rest ih =>
    have h1 := h comb (List.mem_cons_self _ _)
    obtain ⟨p, hp⟩ := Option.isSome_iff_exists.mp h1
    have hrest := ih (fun x hx => h x (List.mem_cons_of_mem _ hx))
    unfold rtpTerms
    rw [hp, hrest]
    simp [hp]

theorem winCount_eq_countP (c : ProbCalc) (L : List (List String))
    (h : ∀ comb ∈ L, (calculate_payout c comb 1).isSome) :
    winCount c L = some (L.countP
      (fun comb => decide (0 < (calculate_payout c comb 1).getD 0))) := by
  induction L with
  | nil => rfl
  | cons comb rest ih =>
    have h1 := h comb (List.mem_cons_self _ _)
    obtain ⟨p, hp⟩ := Option.isSome_iff_exists.mp h1
    have hrest := ih (fun x hx => h x (List.mem_cons_of_mem _ hx))
    unfold winCount
    rw [hp, hrest]
    simp only [Option.bind_some, Option.bind_eq_bind, Option.some_bind]
    rw [List.countP_cons, hp]
    simp only [Option.getD_some, Option.some.injEq]
    by_cases hpos : 0 < p
    · simp [hpos, Nat.add_comm]
    · simp [hpos]

theorem getD_map_div (w : List Int) (W : ℚ) (i : Nat) :
    (w.map (fun x => (x : ℚ) / W)).getD i 0 = ((w.getD i 0 : Int) : ℚ) / W := by
  induction w generalizing i with
  | nil => simp [List.getD_nil]
  | cons a t ih =>
    cases i with
    | zero => simp [List.getD_cons_zero]
    | succ n =>
      simp only [List.map_cons, List.getD_cons_succ]
      exact ih n

theorem symbolProb_eq_weight (c : ProbCalc)
    (hcoh : c.probabilities = calcProbabilities c.weights) (s : String) :
    symbolProb c s = ((weightOf c s : Int) : ℚ) / ((totalWeight c : Int) : ℚ) := by
  unfold symbolProb weightOf totalWeight
  rw [hcoh]
  unfold calcProbabilities
  exact getD_map_div c.weights _ _

theorem combProb_eq_spec (c : ProbCalc)
    (hcoh : c.probabilities = calcProbabilities c.weights) (comb : List String) :
    combProb c comb = specOutcomeProb c comb := by
  unfold combProb specOutcomeProb
  congr 1
  apply List.map_congr_left
  intro s _
  exact symbolProb_eq_weight c hcoh s

/-- C1: for every valid configuration, calculate_theoretical_rtp returns
exactly 100 times the sum over all ordered outcomes of the product of
per-reel weight fractions times the unit-bet payout of the outcome; in
particular on symbols A and B with weights 1 and 1, multipliers 10 and 5
and two reels it returns 375. -/
theorem theoretical_rtp_exact (c : ProbCalc) (hv : ValidConfig c) :
    calculate_theoretical_rtp c = some (specRtp c) ∧
    calculate_theoretical_rtp exCfg = some 375 := by
  constructor
  · have hsome : ∀ comb ∈ allCombinations c.symbols c.numReels,
        (calculate_payout c comb 1).isSome := by
      intro comb hc
      obtain ⟨hlen, hmem⟩ := allCombinations_length_mem c.symbols c.numReels comb hc
      apply calculate_payout_isSome c comb 1 hlen
      intro he
      have h1 := hv.2.2.2.2.1
      rw [he] at hlen
      simp at hlen
      omega
    unfold calculate_theoretical_rtp
    rw [rtpTerms_eq_sum c _ hsome]
    unfold specRtp
    simp only [Option.some.injEq]
    rw [mul_comm]
    congr 1
    congr 1
    apply List.map_congr_left
    intro comb hc
    rw [combProb_eq_spec c hv.2.2.2.2.2 comb, mul_comm]
  · with_unfolding_all rfl

/-- C1 witness: the general statement applied to the spec's example
configuration, whose RTP is exactly 375. -/
theorem theoretical_rtp_exact_witness :
    calculate_theoretical_rtp exCfg = some (specRtp exCfg) ∧
    calculate_theoretical_rtp exCfg = some 375 :=
  theoretical_rtp_exact exCfg (of_decide_eq_true (by with_unfolding_all rfl))

/-- C2 counterexample: on the valid two-reel configuration with weights 1
and 3 (multipliers 10 and 5), the code returns 50 while 100 times the
weighted probability of a winning outcome is 62.5. -/
theorem win_probability_cex :
    calculate_win_probability cfgW = some 50 ∧
    specWinProbability cfgW = 125 / 2 ∧
    (50 : ℚ) ≠ 125 / 2 := by
  refine ⟨by with_unfolding_all rfl, by with_unfolding_all rfl, by norm_num⟩

/-- C2 amended: for every valid configuration with at least one symbol,
calculate_win_probability returns 100 times the number of winning
combinations divided by the total number of combinations - the uniform
fraction, not the weighted probability. -/
theorem win_probability_amended (c : ProbCalc) (hv : ValidConfig c)
    (hne : c.symbols ≠ []) :
    calculate_win_probability c =
      some (100 * (((allCombinations c.symbols c.numReels).countP
          (fun comb => decide (0 < (calculate_payout c comb 1).getD 0)) : Nat) : ℚ) /
        ((c.symbols.length ^ c.numReels : Nat) : ℚ)) := by
  have hsome : ∀ comb ∈ allCombinations c.symbols c.numReels,
      (calculate_payout c comb 1).isSome := by
    intro comb hc
    obtain ⟨hlen, hmem⟩ := allCombinations_length_mem c.symbols c.numReels comb hc
    apply calculate_payout_isSome c comb 1 hlen
    intro he
    have h1 := hv.2.2.2.2.1
    rw [he] at hlen
    simp at hlen
    omega
  unfold calculate_win_probability
  rw [winCount_eq_countP c _ hsome]
  simp only
  have hlen0 : (allCombinations c.symbols c.numReels).length ≠ 0 := by
    rw [allCombinations_length]
    exact pow_ne_zero _ (by simpa using hne)
  rw [if_neg hlen0]
  simp only [Option.some.injEq]
  rw [allCombinations_length]
  ring

/-- C2 amended witness: on the spec's example configuration the code
returns 100 times 2 winning combinations out of 4. -/
theorem win_probability_amended_witness :
    calculate_win_probability exCfg =
      some (100 * (((allCombinations exCfg.symbols exCfg.numReels).countP
          (fun comb => decide (0 < (calculate_payout exCfg comb 1).getD 0)) : Nat) : ℚ) /
        ((exCfg.symbols.length ^ exCfg.numReels : Nat) : ℚ)) :=
  win_probability_amended exCfg (of_decide_eq_true (by with_unfolding_all rfl)) (by decide)
